import Mathlib

/-!
Verification of the Friegent messaging/orchestration core.

Shallow embedding of:
- `nanda_hub.py` — the in-memory `NandaHub` (agent directory + per-agent FIFO
  mailboxes).  Python dicts are modelled as insertion-ordered association
  lists (`dictInsert` updates in place, appends new keys), `uuid4` message
  ids as a fresh counter threaded through the hub state.
- `api_server_llm_a2a_auto_db_ec2.py` — the recommendation worker
  (`process_recommendation_requests_for_agent`) and the fan-out/fan-in
  orchestrator (`freigent_auto_search`).  The external collaborators (SQLite
  profile store, peer-id listing, the LLM recommendation call) are passed in
  as function parameters, as the spec treats them as out-of-scope interfaces.

Payload dicts are modelled by a record of the keys the core reads and writes
(`type`, `from_user_id`, `query`, `original_message_id`, `reason`,
`profile_user_id`, `result`); absent keys are `none`.

To settle temporal claims, the worker and the orchestrator also produce a
trace of the externally visible events (recommendation calls, hub sends and
mailbox drains) in the order the Python code performs them.
-/

namespace Friegent

/-- One product of the external recommendation function (spec section 6). -/
structure Product where
  name : String
  short_description : String
  why_match : String
  estimated_price_range : String
deriving DecidableEq, Repr

/-- The `{products, summary_for_user}` payload of the recommendation call. -/
structure RecResult where
  products : List Product
  summary_for_user : String
deriving DecidableEq, Repr

/-- One product experience inside a stored profile. -/
structure Experience where
  name : String
  notes : String
  rating : Int
deriving DecidableEq, Repr

/-- A stored user profile, as returned by `db_load_profile`. -/
structure Profile where
  name : String
  personality : String
  values : String
  experiences : List Experience
deriving DecidableEq, Repr

/-- A message payload: the keys the worker/orchestrator layer reads or
writes.  A key that is absent from the Python dict is `none`. -/
structure Payload where
  type : Option String := none
  from_user_id : Option String := none
  query : Option String := none
  original_message_id : Option Nat := none
  reason : Option String := none
  profile_user_id : Option String := none
  result : Option RecResult := none
deriving DecidableEq, Repr

/-- `A2AMessage` from `nanda_hub.py`; `message_id` is a fresh counter value
standing in for `uuid4`. -/
structure A2AMessage where
  message_id : Nat
  from_agent_id : String
  to_agent_id : String
  payload : Payload
deriving DecidableEq, Repr

/-- `AgentRegistration` from `nanda_hub.py`. -/
structure AgentRegistration where
  agent_id : String
  agent_type : String
  display_name : String
  personality_summary : String
deriving DecidableEq, Repr

/-- Lookup in an insertion-ordered association list (Python `dict.get`). -/
def dictLookup {β : Type} : List (String × β) → String → Option β
  | [], _ => none
  | (k', v') :: rest, k => if k' = k then some v' else dictLookup rest k

/-- Python `d[k] = v`: update in place when the key exists, append otherwise
(insertion order preserved, as for a Python dict). -/
def dictInsert {β : Type} : List (String × β) → String → β → List (String × β)
  | [], k, v => [(k, v)]
  | (k', v') :: rest, k, v =>
    if k' = k then (k, v) :: rest else (k', v') :: dictInsert rest k v

/-- Python `k in d`. -/
def dictContains {β : Type} (d : List (String × β)) (k : String) : Bool :=
  (dictLookup d k).isSome

/-- The `NandaHub` state: directory, mailboxes, and the fresh-id counter
modelling `uuid4` uniqueness. -/
structure NandaHub where
  agents : List (String × AgentRegistration)
  inboxes : List (String × List A2AMessage)
  nextId : Nat
deriving DecidableEq, Repr

/-- The empty hub (`NandaHub.__init__`). -/
def NandaHub.empty : NandaHub := ⟨[], [], 0⟩

/-- `NandaHub.register_agent`: upsert the directory entry and ensure the
mailbox exists. -/
def register_agent (hub : NandaHub) (agent_id agent_type display_name
    personality_summary : String) : NandaHub :=
  let agents' := dictInsert hub.agents agent_id
    ⟨agent_id, agent_type, display_name, personality_summary⟩
  let inboxes' :=
    if dictContains hub.inboxes agent_id then hub.inboxes
    else dictInsert hub.inboxes agent_id []
  { hub with agents := agents', inboxes := inboxes' }

/-- `NandaHub.send_message`: create the recipient's inbox when absent, append
a freshly-identified message, return it with the new hub state. -/
def send_message (hub : NandaHub) (from_agent_id to_agent_id : String)
    (payload : Payload) : A2AMessage × NandaHub :=
  let inboxes0 :=
    if dictContains hub.inboxes to_agent_id then hub.inboxes
    else dictInsert hub.inboxes to_agent_id []
  let msg : A2AMessage :=
    ⟨hub.nextId, from_agent_id, to_agent_id, payload⟩
  let inboxes1 := dictInsert inboxes0 to_agent_id
    ((dictLookup inboxes0 to_agent_id).getD [] ++ [msg])
  (msg, { hub with inboxes := inboxes1, nextId := hub.nextId + 1 })

/-- `NandaHub.get_inbox`: read the mailbox (empty when unknown); with
`clear`, reset the entry to `[]` (creating it when absent, as the Python
assignment `self.inboxes[agent_id] = []` does). -/
def get_inbox (hub : NandaHub) (agent_id : String) (clear : Bool) :
    List A2AMessage × NandaHub :=
  let msgs := (dictLookup hub.inboxes agent_id).getD []
  if clear then
    (msgs, { hub with inboxes := dictInsert hub.inboxes agent_id [] })
  else (msgs, hub)

/-! ### Association-list lemmas -/

theorem dictLookup_insert_self {β : Type} (d : List (String × β)) (k : String)
    (v : β) : dictLookup (dictInsert d k v) k = some v := by
  induction d with
  | nil => simp [dictInsert, dictLookup]
  | cons hd tl ih =>
    obtain ⟨a, b⟩ := hd
    by_cases h : a = k
    · simp [dictInsert, dictLookup, h]
    · simp [dictInsert, dictLookup, h, ih]

theorem dictLookup_insert_ne {β : Type} (d : List (String × β)) (k k' : String)
    (v : β) (h : k' ≠ k) : dictLookup (dictInsert d k v) k' = dictLookup d k' := by
  induction d with
  | nil => simp [dictInsert, dictLookup, Ne.symm h]
  | cons hd tl ih =>
    obtain ⟨a, b⟩ := hd
    by_cases hk : a = k
    · subst hk
      simp [dictInsert, dictLookup, Ne.symm h]
    · by_cases hk' : a = k'
      · simp [dictInsert, dictLookup, hk, hk', h]
      · simp [dictInsert, dictLookup, hk, hk', ih]

/-! ### Worker: `process_recommendation_requests_for_agent` -/

/-- Externally visible events, in program order: `egen a` is a call of the
external recommendation function by agent `a`; `esend f t` is
`hub.send_message(from_agent_id=f, to_agent_id=t, ...)`; `edrain a` is
`hub.get_inbox(a, clear=True)`; `eregister a` is `hub.register_agent(a, ...)`. -/
inductive Event where
  | egen (agent_id : String)
  | esend (from_agent_id to_agent_id : String)
  | edrain (agent_id : String)
  | eregister (agent_id : String)
deriving DecidableEq, Repr

/-- One processed-message summary appended to the worker's `processed` list;
keys absent from the Python dict are `none`. -/
structure Outcome where
  request_message_id : Nat
  status : String
  reason : Option String := none
  error : Option String := none
  sent_to : Option String := none
deriving DecidableEq, Repr

/-- The worker's `for m in msgs[:max_messages]` loop body, one message at a
time (the Python branches in the same order: non-request → `ignored`;
missing profile → `recommendation_error` + `error`; otherwise generate,
send `recommendation_response`, record `ok`). -/
def processLoop (gen : String → Profile → String → RecResult)
    (load : String → Option Profile) (worker_id : String) :
    List A2AMessage → NandaHub → List Outcome × NandaHub × List Event
  | [], hub => ([], hub, [])
  | m :: rest, hub =>
    if m.payload.type = some "recommendation_request" then
      let from_agent := m.from_agent_id
      let query := m.payload.query.getD ""
      let profile_user_id := m.payload.from_user_id.getD from_agent
      match load profile_user_id with
      | none =>
        let error_text := "No profile found for user_id '" ++ profile_user_id ++ "'"
        let hub' := (send_message hub worker_id from_agent
          { type := some "recommendation_error", reason := some error_text,
            original_message_id := some m.message_id }).2
        let r := processLoop gen load worker_id rest hub'
        ({ request_message_id := m.message_id, status := "error",
           error := some error_text } :: r.1,
         r.2.1, Event.esend worker_id from_agent :: r.2.2)
      | some profile =>
        let result := gen worker_id profile query
        let hub' := (send_message hub worker_id from_agent
          { type := some "recommendation_response",
            original_message_id := some m.message_id, query := some query,
            profile_user_id := some profile_user_id,
            result := some result }).2
        let r := processLoop gen load worker_id rest hub'
        ({ request_message_id := m.message_id, status := "ok",
           sent_to := some from_agent } :: r.1,
         r.2.1, Event.egen worker_id :: Event.esend worker_id from_agent :: r.2.2)
    else
      let r := processLoop gen load worker_id rest hub
      ({ request_message_id := m.message_id, status := "ignored",
         reason := some ("Unsupported payload.type '" ++
           (match m.payload.type with | some s => s | none => "None") ++ "'") } :: r.1,
       r.2.1, r.2.2)

/-- `process_recommendation_requests_for_agent`: drain the worker's own
mailbox with `clear=True`, then run the loop over the first `max_messages`
drained messages (`msgs[:max_messages]`; the cap is a count, matching the
non-negative Python slice). -/
def process_recommendation_requests_for_agent
    (gen : String → Profile → String → RecResult)
    (load : String → Option Profile) (worker_id : String) (max_messages : Nat)
    (hub : NandaHub) : List Outcome × NandaHub × List Event :=
  let d := get_inbox hub worker_id true
  let r := processLoop gen load worker_id (d.1.take max_messages) d.2
  (r.1, r.2.1, Event.edrain worker_id :: r.2.2)

/-! ### Orchestrator: `freigent_auto_search` -/

/-- One entry of `helper_results`. -/
structure HelperResult where
  agent_id : String
  result : RecResult
deriving DecidableEq, Repr

/-- The `AutoSearchResponse` record. -/
structure AutoSearchResponse where
  base_agent_id : String
  helper_agent_ids : List String
  base_result : RecResult
  helper_results : List HelperResult
  merged_products : List Product
  merged_summary_for_user : String
deriving DecidableEq, Repr

/-- The orchestrator's peer (re-)registration loop: for each helper id still
loadable from the profile store, register it on the hub with profile-derived
display fields; an unloadable peer is skipped. -/
def registerLoop (load : String → Option Profile) :
    List String → NandaHub → NandaHub × List Event
  | [], hub => (hub, [])
  | hid :: rest, hub =>
    match load hid with
    | some prof =>
      let hub' := register_agent hub hid "freigent" prof.name prof.personality
      let r := registerLoop load rest hub'
      (r.1, Event.eregister hid :: r.2)
    | none => registerLoop load rest hub

/-- The fan-out loop: one `recommendation_request` per helper, from the base
user, carrying `{from_user_id, query}`. -/
def sendLoop (user_id query : String) :
    List String → NandaHub → NandaHub × List Event
  | [], hub => (hub, [])
  | hid :: rest, hub =>
    let hub' := (send_message hub user_id hid
      { type := some "recommendation_request", from_user_id := some user_id,
        query := some query }).2
    let r := sendLoop user_id query rest hub'
    (r.1, Event.esend user_id hid :: r.2)

/-- The dispatch loop: invoke the worker synchronously for each helper, with
the fixed cap of 10 messages. -/
def dispatchLoop (gen : String → Profile → String → RecResult)
    (load : String → Option Profile) :
    List String → NandaHub → NandaHub × List Event
  | [], hub => (hub, [])
  | hid :: rest, hub =>
    let p := process_recommendation_requests_for_agent gen load hid 10 hub
    let r := dispatchLoop gen load rest p.2.1
    (r.1, p.2.2 ++ r.2)

/-- The fan-in loop over the drained base mailbox: each
`recommendation_response` contributes, in drain order, one `HelperResult`
(keyed by its sender, with the `result` payload, `{}` when absent) and its
product list; any other message type is skipped silently. -/
def fanInLoop : List A2AMessage → List HelperResult × List Product
  | [] => ([], [])
  | msg :: rest =>
    let r := fanInLoop rest
    if msg.payload.type = some "recommendation_response" then
      let result := msg.payload.result.getD ⟨[], ""⟩
      (⟨msg.from_agent_id, result⟩ :: r.1, result.products ++ r.2)
    else r

/-- `freigent_auto_search`: resolve the base profile (absent aborts the run
with the HTTP 400 detail and no effect), run the base recommendation,
discover helpers, register them, fan out one request per helper, dispatch
the worker per helper, drain the base mailbox once, fan in, merge products
by plain concatenation and synthesize the summary sentence. -/
def freigent_auto_search (gen : String → Profile → String → RecResult)
    (load : String → Option Profile) (listHelpers : String → List String)
    (user_id query : String) (hub : NandaHub) :
    Except String AutoSearchResponse × NandaHub × List Event :=
  match load user_id with
  | none =>
    (.error ("No profile stored for user_id '" ++ user_id ++
      "'. Call POST /freigent/" ++ user_id ++ "/profile first."), hub, [])
  | some profile =>
    let base_result := gen user_id profile query
    let helper_ids := listHelpers user_id
    let reg := registerLoop load helper_ids hub
    let snd := sendLoop user_id query helper_ids reg.1
    let dsp := dispatchLoop gen load helper_ids snd.1
    let inc := get_inbox dsp.1 user_id true
    let fin := fanInLoop inc.1
    let merged_products := base_result.products ++ fin.2
    let merged_summary := "This response combines the base Freigent '" ++
      user_id ++ "' recommendations with " ++ toString fin.1.length ++
      " helper Freigent(s): " ++
      (if helper_ids = [] then "none" else String.intercalate ", " helper_ids) ++ "."
    (.ok ⟨user_id, helper_ids, base_result, fin.1, merged_products, merged_summary⟩,
     inc.2,
     Event.egen user_id :: (reg.2 ++ snd.2 ++ dsp.2 ++ [Event.edrain user_id]))

/-- A sequence of `send_message` calls addressed to one agent `dest`, each
given by its sender and payload. -/
def sendSeq (dest : String) : NandaHub → List (String × Payload) → NandaHub
  | hub, [] => hub
  | hub, (f, p) :: rest => sendSeq dest (send_message hub f dest p).2 rest

/-! ### Hub lemmas -/

theorem send_message_inbox_dest (hub : NandaHub) (f t : String) (p : Payload) :
    dictLookup (send_message hub f t p).2.inboxes t =
      some ((dictLookup hub.inboxes t).getD [] ++ [⟨hub.nextId, f, t, p⟩]) := by
  cases hc : dictContains hub.inboxes t with
  | true => simp [send_message, hc, dictLookup_insert_self]
  | false =>
    have hnone : dictLookup hub.inboxes t = none := by
      unfold dictContains at hc
      simpa using hc
    simp [send_message, hc, dictLookup_insert_self, hnone]

theorem send_message_inbox_other (hub : NandaHub) (f t a : String) (p : Payload)
    (h : a ≠ t) :
    dictLookup (send_message hub f t p).2.inboxes a = dictLookup hub.inboxes a := by
  cases hc : dictContains hub.inboxes t with
  | true => simp [send_message, hc, dictLookup_insert_ne _ _ _ _ h]
  | false => simp [send_message, hc, dictLookup_insert_ne _ _ _ _ h]

theorem send_message_nextId (hub : NandaHub) (f t : String) (p : Payload) :
    (send_message hub f t p).2.nextId = hub.nextId + 1 := rfl

/-- The messages a `sendSeq` run stores, given the fresh-id counter at its
start (the embedding's stand-in for the uuids). -/
def msgsOf (dest : String) : Nat → List (String × Payload) → List A2AMessage
  | _, [] => []
  | n, (f, p) :: rest => ⟨n, f, dest, p⟩ :: msgsOf dest (n + 1) rest

theorem sendSeq_inbox_dest (dest : String) :
    ∀ (sends : List (String × Payload)) (hub : NandaHub),
    (dictLookup (sendSeq dest hub sends).inboxes dest).getD [] =
      (dictLookup hub.inboxes dest).getD [] ++ msgsOf dest hub.nextId sends
  | [], hub => by simp [sendSeq, msgsOf]
  | (f, p) :: rest, hub => by
    have ih := sendSeq_inbox_dest dest rest (send_message hub f dest p).2
    rw [sendSeq, ih, send_message_inbox_dest, send_message_nextId]
    simp [msgsOf]

theorem msgsOf_map (dest : String) :
    ∀ (n : Nat) (sends : List (String × Payload)),
    (msgsOf dest n sends).map (fun m => (m.from_agent_id, m.to_agent_id, m.payload)) =
      sends.map (fun s => (s.1, dest, s.2))
  | _, [] => by simp [msgsOf]
  | n, (f, p) :: rest => by simp [msgsOf, msgsOf_map dest (n + 1) rest]

/-- C1: for every agent id and every sequence of `send_message` calls
addressed to it with no intervening drains (modelled by the mailbox being
empty — or absent — at the start of the sequence), `get_inbox(agent_id,
clear=True)` returns exactly the sent messages, with the senders, recipient
and payloads of the sends in send order, and an immediately following
`get_inbox` on the same id returns the empty sequence. -/
theorem hub_fifo_drain (hub : NandaHub) (a : String)
    (sends : List (String × Payload))
    (h : (dictLookup hub.inboxes a).getD [] = []) :
    ((get_inbox (sendSeq a hub sends) a true).1.map
        (fun m => (m.from_agent_id, m.to_agent_id, m.payload)) =
      sends.map (fun s => (s.1, a, s.2))) ∧
    (get_inbox (get_inbox (sendSeq a hub sends) a true).2 a true).1 = [] := by
  constructor
  · have h1 := sendSeq_inbox_dest a sends hub
    have h2 : (get_inbox (sendSeq a hub sends) a true).1 =
        (dictLookup (sendSeq a hub sends).inboxes a).getD [] := rfl
    rw [h2, h1, h, List.nil_append, msgsOf_map]
  · simp [get_inbox, dictLookup_insert_self]

/-- Witness for C1: two sends to agent "a" on the empty hub. -/
theorem hub_fifo_drain_witness :
    ((dictLookup NandaHub.empty.inboxes "a").getD [] = []) ∧
    (((get_inbox (sendSeq "a" NandaHub.empty
        [("b", { type := some "ping" }), ("c", {})]) "a" true).1.map
        (fun m => (m.from_agent_id, m.to_agent_id, m.payload)) =
      [("b", "a", { type := some "ping" }), ("c", "a", ({} : Payload))]) ∧
    (get_inbox (get_inbox (sendSeq "a" NandaHub.empty
        [("b", { type := some "ping" }), ("c", {})]) "a" true).2 "a" true).1 = []) :=
  ⟨rfl, hub_fifo_drain NandaHub.empty "a"
    [("b", { type := some "ping" }), ("c", {})] rfl⟩

/-- C7: a run on an absent base profile aborts with the `ProfileNotFound`
detail string, produces no result object, and has no partial effects: the
hub state is returned unchanged and the event trace is empty (no
recommendation call, no registration, no send, no drain). -/
theorem base_profile_missing_aborts
    (gen : String → Profile → String → RecResult)
    (load : String → Option Profile) (listHelpers : String → List String)
    (user_id query : String) (hub : NandaHub) (h : load user_id = none) :
    freigent_auto_search gen load listHelpers user_id query hub =
      (.error ("No profile stored for user_id '" ++ user_id ++
        "'. Call POST /freigent/" ++ user_id ++ "/profile first."), hub, []) := by
  simp [freigent_auto_search, h]

/-- Witness for C7: a concrete run with an empty profile store. -/
theorem base_profile_missing_aborts_witness :
    freigent_auto_search (fun _ _ _ => ⟨[], ""⟩) (fun _ => none) (fun _ => [])
      "u1" "q" NandaHub.empty =
      (.error ("No profile stored for user_id 'u1'. " ++
        "Call POST /freigent/u1/profile first."), NandaHub.empty, []) :=
  base_profile_missing_aborts (fun _ _ _ => ⟨[], ""⟩) (fun _ => none)
    (fun _ => []) "u1" "q" NandaHub.empty rfl

/-- C10: `get_inbox` on an agent id with no existing mailbox returns the
empty sequence; with `clear=True` it creates a persistent empty mailbox
entry for that id, while with `clear=False` it leaves the hub state
completely unchanged. -/
theorem get_inbox_unknown (hub : NandaHub) (a : String)
    (h : dictLookup hub.inboxes a = none) :
    (get_inbox hub a true).1 = [] ∧
    dictLookup (get_inbox hub a true).2.inboxes a = some [] ∧
    get_inbox hub a false = ([], hub) := by
  refine ⟨?_, ?_, ?_⟩ <;> simp [get_inbox, h, dictLookup_insert_self]

/-- Witness for C10: the empty hub and agent "a". -/
theorem get_inbox_unknown_witness :
    (get_inbox NandaHub.empty "a" true).1 = [] ∧
    dictLookup (get_inbox NandaHub.empty "a" true).2.inboxes "a" = some [] ∧
    get_inbox NandaHub.empty "a" false = ([], NandaHub.empty) :=
  get_inbox_unknown NandaHub.empty "a" rfl

/-! ### Worker single-message scenarios (C2, C8) -/

/-- A concrete recommendation function used by the witnesses. -/
def genW : String → Profile → String → RecResult :=
  fun a _ q => ⟨[⟨"p-" ++ a ++ "-" ++ q, "d", "w", "r"⟩], "sum"⟩

/-- A concrete stored profile used by the witnesses. -/
def profW : Profile := ⟨"N", "P", "V", []⟩

/-- A concrete well-formed recommendation request from "u1" to "u2". -/
def msgW : A2AMessage :=
  ⟨0, "u1", "u2", { type := some "recommendation_request",
                    from_user_id := some "u1", query := some "q" }⟩

/-- A concrete hub whose only mailbox is "u2"'s, holding `msgW`. -/
def hubW : NandaHub := ⟨[], [("u2", [msgW])], 5⟩

/-- The reply payload the worker is expected to produce for `msgW`. -/
def replyPayloadW : Payload :=
  { type := some "recommendation_response", original_message_id := some 0,
    query := some "q", profile_user_id := some "u1",
    result := some (genW "u2" profW "q") }

/-- A concrete request whose resolved profile id "u9" is unknown. -/
def msgW9 : A2AMessage :=
  ⟨0, "u1", "u2", { type := some "recommendation_request",
                    from_user_id := some "u9", query := some "q" }⟩

/-- A concrete hub whose only mailbox is "u2"'s, holding `msgW9`. -/
def hubW9 : NandaHub := ⟨[], [("u2", [msgW9])], 5⟩

/-- The error payload the worker is expected to produce for `msgW9`. -/
def errPayloadW : Payload :=
  { type := some "recommendation_error",
    reason := some "No profile found for user_id 'u9'",
    original_message_id := some 0 }

/-- A concrete profile store holding only "u1". -/
def loadW : String → Option Profile := fun s => if s = "u1" then some profW else none

/-- C2: on a mailbox holding exactly one `recommendation_request` whose
resolved profile id (`payload.from_user_id`, else the sender) has a stored
profile, the worker yields exactly one `ok` outcome naming the recipient,
sends exactly one new message (the fresh-id counter advances by one), and
that message is a `recommendation_response` appended to the requester's
mailbox whose payload carries `original_message_id` equal to the request's
`message_id`, the query, the `profile_user_id` and the generated result. -/
theorem worker_ok_single (gen : String → Profile → String → RecResult)
    (load : String → Option Profile) (w : String) (hub : NandaHub)
    (m : A2AMessage) (prof : Profile) (max_messages : Nat)
    (hibx : dictLookup hub.inboxes w = some [m])
    (htype : m.payload.type = some "recommendation_request")
    (hprof : load (m.payload.from_user_id.getD m.from_agent_id) = some prof)
    (hmax : 0 < max_messages) :
    (process_recommendation_requests_for_agent gen load w max_messages hub).1 =
      [{ request_message_id := m.message_id, status := "ok",
         sent_to := some m.from_agent_id }] ∧
    (process_recommendation_requests_for_agent gen load w max_messages hub).2.1.nextId =
      hub.nextId + 1 ∧
    dictLookup (process_recommendation_requests_for_agent gen load w
        max_messages hub).2.1.inboxes m.from_agent_id =
      some ((if m.from_agent_id = w then []
             else (dictLookup hub.inboxes m.from_agent_id).getD []) ++
        [⟨hub.nextId, w, m.from_agent_id,
          { type := some "recommendation_response",
            original_message_id := some m.message_id,
            query := some (m.payload.query.getD ""),
            profile_user_id := some (m.payload.from_user_id.getD m.from_agent_id),
            result := some (gen w prof (m.payload.query.getD "")) }⟩]) := by
  obtain ⟨k, rfl⟩ : ∃ k, max_messages = k + 1 := ⟨max_messages - 1, by omega⟩
  have hhub1 : get_inbox hub w true =
      ([m], { hub with inboxes := dictInsert hub.inboxes w [] }) := by
    simp [get_inbox, hibx]
  have hres : process_recommendation_requests_for_agent gen load w (k + 1) hub =
      ([{ request_message_id := m.message_id, status := "ok",
          sent_to := some m.from_agent_id }],
       (send_message { hub with inboxes := dictInsert hub.inboxes w [] } w
          m.from_agent_id
          { type := some "recommendation_response",
            original_message_id := some m.message_id,
            query := some (m.payload.query.getD ""),
            profile_user_id := some (m.payload.from_user_id.getD m.from_agent_id),
            result := some (gen w prof (m.payload.query.getD "")) }).2,
       [Event.edrain w, Event.egen w, Event.esend w m.from_agent_id]) := by
    unfold process_recommendation_requests_for_agent
    rw [hhub1]
    simp [processLoop, htype, hprof]
  rw [hres]
  refine ⟨rfl, rfl, ?_⟩
  rw [send_message_inbox_dest]
  by_cases hfw : m.from_agent_id = w
  · simp [hfw, dictLookup_insert_self]
  · simp [hfw, dictLookup_insert_ne hub.inboxes w m.from_agent_id [] hfw]

/-- Witness for C2: the concrete request `msgW` processed for "u2". -/
theorem worker_ok_single_witness :
    (process_recommendation_requests_for_agent genW loadW "u2" 10 hubW).1 =
      [{ request_message_id := 0, status := "ok", sent_to := some "u1" }] ∧
    (process_recommendation_requests_for_agent genW loadW "u2" 10 hubW).2.1.nextId = 6 ∧
    dictLookup (process_recommendation_requests_for_agent genW loadW "u2"
        10 hubW).2.1.inboxes "u1" =
      some [⟨5, "u2", "u1", replyPayloadW⟩] :=
  worker_ok_single genW loadW "u2" hubW msgW profW 10 rfl rfl rfl (by decide)

/-- C8: on a mailbox holding exactly one `recommendation_request` whose
resolved profile id has no stored profile, the worker yields exactly one
`error` outcome, sends exactly one new message (the counter advances by
one), and that single message is a `recommendation_error` to the requester
carrying the reason and the request's `message_id` as
`original_message_id` — so no `recommendation_response` is sent. -/
theorem worker_error_single (gen : String → Profile → String → RecResult)
    (load : String → Option Profile) (w : String) (hub : NandaHub)
    (m : A2AMessage) (max_messages : Nat)
    (hibx : dictLookup hub.inboxes w = some [m])
    (htype : m.payload.type = some "recommendation_request")
    (hprof : load (m.payload.from_user_id.getD m.from_agent_id) = none)
    (hmax : 0 < max_messages) :
    (process_recommendation_requests_for_agent gen load w max_messages hub).1 =
      [{ request_message_id := m.message_id, status := "error",
         error := some ("No profile found for user_id '" ++
           m.payload.from_user_id.getD m.from_agent_id ++ "'") }] ∧
    (process_recommendation_requests_for_agent gen load w max_messages hub).2.1.nextId =
      hub.nextId + 1 ∧
    dictLookup (process_recommendation_requests_for_agent gen load w
        max_messages hub).2.1.inboxes m.from_agent_id =
      some ((if m.from_agent_id = w then []
             else (dictLookup hub.inboxes m.from_agent_id).getD []) ++
        [⟨hub.nextId, w, m.from_agent_id,
          { type := some "recommendation_error",
            reason := some ("No profile found for user_id '" ++
              m.payload.from_user_id.getD m.from_agent_id ++ "'"),
            original_message_id := some m.message_id }⟩]) := by
  obtain ⟨k, rfl⟩ : ∃ k, max_messages = k + 1 := ⟨max_messages - 1, by omega⟩
  have hhub1 : get_inbox hub w true =
      ([m], { hub with inboxes := dictInsert hub.inboxes w [] }) := by
    simp [get_inbox, hibx]
  have hres : process_recommendation_requests_for_agent gen load w (k + 1) hub =
      ([{ request_message_id := m.message_id, status := "error",
          error := some ("No profile found for user_id '" ++
            m.payload.from_user_id.getD m.from_agent_id ++ "'") }],
       (send_message { hub with inboxes := dictInsert hub.inboxes w [] } w
          m.from_agent_id
          { type := some "recommendation_error",
            reason := some ("No profile found for user_id '" ++
              m.payload.from_user_id.getD m.from_agent_id ++ "'"),
            original_message_id := some m.message_id }).2,
       [Event.edrain w, Event.esend w m.from_agent_id]) := by
    unfold process_recommendation_requests_for_agent
    rw [hhub1]
    simp [processLoop, htype, hprof]
  rw [hres]
  refine ⟨rfl, rfl, ?_⟩
  rw [send_message_inbox_dest]
  by_cases hfw : m.from_agent_id = w
  · simp [hfw, dictLookup_insert_self]
  · simp [hfw, dictLookup_insert_ne hub.inboxes w m.from_agent_id [] hfw]

/-- Witness for C8: a request whose resolved profile id "u9" is unknown. -/
theorem worker_error_single_witness :
    (process_recommendation_requests_for_agent genW loadW "u2" 10 hubW9).1 =
      [{ request_message_id := 0, status := "error",
         error := some "No profile found for user_id 'u9'" }] ∧
    (process_recommendation_requests_for_agent genW loadW "u2" 10 hubW9).2.1.nextId = 6 ∧
    dictLookup (process_recommendation_requests_for_agent genW loadW "u2" 10
        hubW9).2.1.inboxes "u1" =
      some [⟨5, "u2", "u1", errPayloadW⟩] :=
  worker_error_single genW loadW "u2" hubW9 msgW9 10 rfl rfl rfl (by decide)

/-! ### Fan-in merge (C3) -/

theorem fanInLoop_products : ∀ msgs : List A2AMessage,
    (fanInLoop msgs).2 = ((fanInLoop msgs).1.map fun hr => hr.result.products).flatten
  | [] => by simp [fanInLoop]
  | msg :: rest => by
    by_cases h : msg.payload.type = some "recommendation_response" <;>
      simp [fanInLoop, h, fanInLoop_products rest]

/-- C3: for every completed orchestration run, `merged_products` is the base
result's product list followed by each helper's product list in fan-in
(base-mailbox drain) order — plain concatenation, no de-duplication or
re-ranking. -/
theorem merge_concat (gen : String → Profile → String → RecResult)
    (load : String → Option Profile) (listHelpers : String → List String)
    (user_id query : String) (hub : NandaHub) (resp : AutoSearchResponse)
    (hub' : NandaHub) (tr : List Event)
    (h : freigent_auto_search gen load listHelpers user_id query hub =
      (.ok resp, hub', tr)) :
    resp.merged_products = resp.base_result.products ++
      (resp.helper_results.map fun hr => hr.result.products).flatten := by
  cases hload : load user_id with
  | none =>
    rw [freigent_auto_search] at h
    simp [hload] at h
  | some profile =>
    rw [freigent_auto_search] at h
    simp only [hload] at h
    rw [Prod.mk.injEq] at h
    obtain ⟨h1, -⟩ := h
    injection h1 with h1
    subst h1
    simp [fanInLoop_products]

/-- A concrete profile store holding only "u1" (used by witnesses). -/
def loadU1 : String → Option Profile := fun s => if s = "u1" then some profW else none

/-- A concrete completed run used by the C3 witness: base "u1", one peer
"u2" with a profile in `loadW`. -/
def runC3 : Except String AutoSearchResponse × NandaHub × List Event :=
  freigent_auto_search genW loadW (fun _ => ["u2"]) "u1" "q" NandaHub.empty

/-- The C3 witness run's response object. -/
def respC3 : AutoSearchResponse :=
  runC3.1.toOption.getD ⟨"", [], ⟨[], ""⟩, [], [], ""⟩

/-- Witness for C3: the concrete run `runC3` completes and its merged list
is the stated concatenation. -/
theorem merge_concat_witness :
    respC3.merged_products = respC3.base_result.products ++
      (respC3.helper_results.map fun hr => hr.result.products).flatten :=
  merge_concat genW loadW (fun _ => ["u2"]) "u1" "q" NandaHub.empty
    respC3 runC3.2.1 runC3.2.2 rfl

/-! ### Worker mailbox emptiness (C4) -/

theorem processLoop_inbox_self_empty (gen : String → Profile → String → RecResult)
    (load : String → Option Profile) (w : String) :
    ∀ (ms : List A2AMessage) (hub : NandaHub),
    (∀ m ∈ ms, m.payload.type = some "recommendation_request" →
      m.from_agent_id ≠ w) →
    dictLookup hub.inboxes w = some [] →
    dictLookup (processLoop gen load w ms hub).2.1.inboxes w = some []
  | [], hub, _, h0 => by simpa [processLoop] using h0
  | m :: rest, hub, hne, h0 => by
    have hrest : ∀ x ∈ rest, x.payload.type = some "recommendation_request" →
        x.from_agent_id ≠ w :=
      fun x hx => hne x (List.mem_cons_of_mem m hx)
    by_cases ht : m.payload.type = some "recommendation_request"
    · have hmne : m.from_agent_id ≠ w := hne m (List.mem_cons_self m rest) ht
      cases hl : load (m.payload.from_user_id.getD m.from_agent_id) with
      | none =>
        have hkeep : dictLookup (send_message hub w m.from_agent_id
            { type := some "recommendation_error",
              reason := some ("No profile found for user_id '" ++
                m.payload.from_user_id.getD m.from_agent_id ++ "'"),
              original_message_id := some m.message_id }).2.inboxes w = some [] := by
          rw [send_message_inbox_other _ _ _ _ _ (Ne.symm hmne)]
          exact h0
        simp only [processLoop, ht, if_pos, hl]
        exact processLoop_inbox_self_empty gen load w rest _ hrest hkeep
      | some prof =>
        have hkeep : dictLookup (send_message hub w m.from_agent_id
            { type := some "recommendation_response",
              original_message_id := some m.message_id,
              query := some (m.payload.query.getD ""),
              profile_user_id := some (m.payload.from_user_id.getD m.from_agent_id),
              result := some (gen w prof (m.payload.query.getD "")) }).2.inboxes w =
            some [] := by
          rw [send_message_inbox_other _ _ _ _ _ (Ne.symm hmne)]
          exact h0
        simp only [processLoop, ht, if_pos, hl]
        exact processLoop_inbox_self_empty gen load w rest _ hrest hkeep
    · simp only [processLoop, ht, if_neg]
      exact processLoop_inbox_self_empty gen load w rest hub hrest h0

/-- C4 (amended): after the worker's `process(agent_id, max_messages)`, the
processed agent's own mailbox is empty provided no examined
`recommendation_request` came from the agent itself; a self-addressed
request is the exception (see the counterexample), because the reply is
appended to the just-cleared mailbox.  Self-sent messages of any other type
are merely recorded as `ignored`, trigger no reply, and so still leave the
mailbox empty. -/
theorem worker_inbox_empty_amended (gen : String → Profile → String → RecResult)
    (load : String → Option Profile) (w : String) (max_messages : Nat)
    (hub : NandaHub)
    (hself : ∀ m ∈ ((dictLookup hub.inboxes w).getD []).take max_messages,
      m.payload.type = some "recommendation_request" → m.from_agent_id ≠ w) :
    dictLookup (process_recommendation_requests_for_agent gen load w
      max_messages hub).2.1.inboxes w = some [] := by
  have h2 : (process_recommendation_requests_for_agent gen load w max_messages hub).2.1 =
      (processLoop gen load w (((dictLookup hub.inboxes w).getD []).take max_messages)
        { hub with inboxes := dictInsert hub.inboxes w [] }).2.1 := rfl
  rw [h2]
  exact processLoop_inbox_self_empty gen load w _ _ hself
    (dictLookup_insert_self hub.inboxes w [])

/-- A hub where "u2"'s mailbox holds a self-sent non-request message (a
"ping" from "u2" itself) followed by a request from "u1". -/
def hubPing : NandaHub :=
  ⟨[], [("u2", [⟨0, "u2", "u2", { type := some "ping" }⟩,
                ⟨1, "u1", "u2", { type := some "recommendation_request",
                                  from_user_id := some "u1",
                                  query := some "q" }⟩])], 2⟩

/-- Witness for C4 (amended): `hubPing` — the self-sent message is not a
`recommendation_request` (its reply-free `ignored` handling leaves the
mailbox empty), and the sole request comes from "u1", not from the
processed agent "u2". -/
theorem worker_inbox_empty_amended_witness :
    (∀ m ∈ ((dictLookup hubPing.inboxes "u2").getD []).take 10,
      m.payload.type = some "recommendation_request" → m.from_agent_id ≠ "u2") ∧
    dictLookup (process_recommendation_requests_for_agent genW loadW "u2"
      10 hubPing).2.1.inboxes "u2" = some [] :=
  ⟨by decide, worker_inbox_empty_amended genW loadW "u2" 10 hubPing (by decide)⟩

/-- A request an agent sent to itself. -/
def selfMsg : A2AMessage := ⟨0, "w", "w", { type := some "recommendation_request" }⟩

/-- A hub whose only mailbox is "w"'s, holding the self-addressed request. -/
def hubSelf : NandaHub := ⟨[], [("w", [selfMsg])], 1⟩

/-- Counterexample to C4 as stated: processing agent "w" whose mailbox holds
a request with `from_agent_id = "w"` leaves the mailbox non-empty — the
worker's reply to the requester lands back in the just-cleared mailbox. -/
theorem worker_self_reply_cex :
    dictLookup (process_recommendation_requests_for_agent genW (fun _ => none)
      "w" 10 hubSelf).2.1.inboxes "w" ≠ some [] := by decide

/-! ### Zero discoverable peers (C6) -/

theorem fanInLoop_no_response : ∀ msgs : List A2AMessage,
    (∀ m ∈ msgs, m.payload.type ≠ some "recommendation_response") →
    fanInLoop msgs = ([], [])
  | [], _ => rfl
  | msg :: rest, h => by
    have hm := h msg (List.mem_cons_self msg rest)
    have hr := fanInLoop_no_response rest (fun x hx => h x (List.mem_cons_of_mem msg hx))
    simp [fanInLoop, hm, hr]

/-- C6 (amended): with zero discoverable peers, a completed run returns
`helper_agent_ids = []`, the base result unchanged, and a summary stating
"none"; `helper_results = []` and `merged_products = base_result.products`
additionally require that the base mailbox held no stale
`recommendation_response` messages (the run drains the base mailbox
unconditionally — see the counterexample). -/
theorem zero_peers_amended (gen : String → Profile → String → RecResult)
    (load : String → Option Profile) (listHelpers : String → List String)
    (uid q : String) (hub : NandaHub) (prof : Profile)
    (hprof : load uid = some prof)
    (hzero : listHelpers uid = [])
    (hclean : ∀ m ∈ (dictLookup hub.inboxes uid).getD [],
      m.payload.type ≠ some "recommendation_response") :
    (freigent_auto_search gen load listHelpers uid q hub).1 =
      .ok ⟨uid, [], gen uid prof q, [], (gen uid prof q).products,
        "This response combines the base Freigent '" ++ uid ++
        "' recommendations with " ++ toString (0 : Nat) ++
        " helper Freigent(s): " ++ "none" ++ "."⟩ := by
  have hfan := fanInLoop_no_response _ hclean
  simp [freigent_auto_search, hprof, hzero, registerLoop, sendLoop,
    dispatchLoop, get_inbox, hfan]

/-- Witness for C6 (amended): base "u1" with a profile, empty hub, zero
peers. -/
theorem zero_peers_amended_witness :
    (freigent_auto_search genW loadU1 (fun _ => []) "u1" "q" NandaHub.empty).1 =
      .ok ⟨"u1", [], genW "u1" profW "q", [], (genW "u1" profW "q").products,
        "This response combines the base Freigent '" ++ "u1" ++
        "' recommendations with " ++ toString (0 : Nat) ++
        " helper Freigent(s): " ++ "none" ++ "."⟩ :=
  zero_peers_amended genW loadU1 (fun _ => []) "u1" "q" NandaHub.empty profW
    rfl rfl (by decide)

/-- A stale `recommendation_response` sitting in "u1"'s mailbox from before
the run. -/
def staleResp : A2AMessage :=
  ⟨0, "zz", "u1", { type := some "recommendation_response",
                    result := some ⟨[⟨"x", "x", "x", "x"⟩], "s"⟩ }⟩

/-- A hub whose only mailbox is "u1"'s, holding the stale response. -/
def hubStale : NandaHub := ⟨[], [("u1", [staleResp])], 1⟩

/-- The C6 counterexample run: zero discoverable peers, stale response in
the base mailbox. -/
def runStale : Except String AutoSearchResponse × NandaHub × List Event :=
  freigent_auto_search genW loadU1 (fun _ => []) "u1" "q" hubStale

/-- The C6 counterexample run's response object. -/
def respStale : AutoSearchResponse :=
  runStale.1.toOption.getD ⟨"", [], ⟨[], ""⟩, [], [], ""⟩

/-- Counterexample to C6 as stated: a hub state with zero discoverable peers
whose completed run nevertheless returns a non-empty `helper_results` and
`merged_products ≠ base_result.products` — the unconditional base-mailbox
drain picks up a stale `recommendation_response`. -/
theorem zero_peers_stale_cex :
    runStale.1 = .ok respStale ∧
    respStale.helper_agent_ids = [] ∧
    respStale.helper_results ≠ [] ∧
    respStale.merged_products ≠ respStale.base_result.products := by
  refine ⟨rfl, by decide, by decide, by decide⟩

/-! ### The per-call cap (C9) -/

theorem processLoop_outcome_ids (gen : String → Profile → String → RecResult)
    (load : String → Option Profile) (w : String) :
    ∀ (ms : List A2AMessage) (hub : NandaHub),
    ((processLoop gen load w ms hub).1.map fun o => o.request_message_id) =
      ms.map fun m => m.message_id
  | [], _ => by simp [processLoop]
  | m :: rest, hub => by
    by_cases ht : m.payload.type = some "recommendation_request"
    · cases hl : load (m.payload.from_user_id.getD m.from_agent_id) with
      | none => simp [processLoop, ht, hl, processLoop_outcome_ids gen load w rest _]
      | some prof => simp [processLoop, ht, hl, processLoop_outcome_ids gen load w rest _]
    · simp [processLoop, ht, processLoop_outcome_ids gen load w rest _]

theorem processLoop_inbox_fresh (gen : String → Profile → String → RecResult)
    (load : String → Option Profile) (w : String) (N : Nat) :
    ∀ (ms : List A2AMessage) (hub : NandaHub),
    N ≤ hub.nextId →
    (∀ x ∈ (dictLookup hub.inboxes w).getD [], N ≤ x.message_id) →
    N ≤ (processLoop gen load w ms hub).2.1.nextId ∧
    ∀ x ∈ (dictLookup (processLoop gen load w ms hub).2.1.inboxes w).getD [],
      N ≤ x.message_id
  | [], hub, hn, hx => by simpa [processLoop] using ⟨hn, hx⟩
  | m :: rest, hub, hn, hx => by
    have hstep : ∀ p : Payload,
        N ≤ (send_message hub w m.from_agent_id p).2.nextId ∧
        ∀ x ∈ (dictLookup (send_message hub w m.from_agent_id p).2.inboxes w).getD [],
          N ≤ x.message_id := by
      intro p
      constructor
      · rw [send_message_nextId]; omega
      · by_cases hfw : m.from_agent_id = w
        · subst hfw
          rw [send_message_inbox_dest]
          intro x hxmem
          simp only [Option.getD_some, List.mem_append, List.mem_singleton] at hxmem
          rcases hxmem with hxmem | rfl
          · exact hx x hxmem
          · exact hn
        · rw [send_message_inbox_other _ _ _ _ _ (Ne.symm hfw)]
          exact hx
    by_cases ht : m.payload.type = some "recommendation_request"
    · cases hl : load (m.payload.from_user_id.getD m.from_agent_id) with
      | none =>
        simp only [processLoop, ht, if_pos, hl]
        exact processLoop_inbox_fresh gen load w N rest _ (hstep _).1 (hstep _).2
      | some prof =>
        simp only [processLoop, ht, if_pos, hl]
        exact processLoop_inbox_fresh gen load w N rest _ (hstep _).1 (hstep _).2
    · simp only [processLoop, ht, if_neg]
      exact processLoop_inbox_fresh gen load w N rest hub hn hx

theorem processLoop_nextId_le (gen : String → Profile → String → RecResult)
    (load : String → Option Profile) (w : String) :
    ∀ (ms : List A2AMessage) (hub : NandaHub),
    (processLoop gen load w ms hub).2.1.nextId ≤ hub.nextId + ms.length
  | [], hub => by simp [processLoop]
  | m :: rest, hub => by
    by_cases ht : m.payload.type = some "recommendation_request"
    · cases hl : load (m.payload.from_user_id.getD m.from_agent_id) with
      | none =>
        simp only [processLoop, ht, if_pos, hl]
        have := processLoop_nextId_le gen load w rest
          (send_message hub w m.from_agent_id
            { type := some "recommendation_error",
              reason := some ("No profile found for user_id '" ++
                m.payload.from_user_id.getD m.from_agent_id ++ "'"),
              original_message_id := some m.message_id }).2
        rw [send_message_nextId] at this
        simpa [Nat.add_comm, Nat.add_left_comm] using this
      | some prof =>
        simp only [processLoop, ht, if_pos, hl]
        have := processLoop_nextId_le gen load w rest
          (send_message hub w m.from_agent_id
            { type := some "recommendation_response",
              original_message_id := some m.message_id,
              query := some (m.payload.query.getD ""),
              profile_user_id := some (m.payload.from_user_id.getD m.from_agent_id),
              result := some (gen w prof (m.payload.query.getD "")) }).2
        rw [send_message_nextId] at this
        simpa [Nat.add_comm, Nat.add_left_comm] using this
    · have hrec := processLoop_nextId_le gen load w rest hub
      simp [processLoop, ht]
      omega

/-- C9: the worker drains the full mailbox and examines at most
`max_messages` of the drained messages, in arrival order, producing one
outcome per examined message (outcome ids are exactly the ids of the first
`min max_messages length` drained messages, in order); every excess drained
message is dropped — it gets no outcome, is never requeued into the
processed agent's mailbox, and triggers no send (the number of sends is
bounded by the number of examined messages).  The freshness hypothesis says
the stored ids predate the hub's id counter, which every reachable hub
state satisfies. -/
theorem worker_cap (gen : String → Profile → String → RecResult)
    (load : String → Option Profile) (w : String) (max_messages : Nat)
    (hub : NandaHub)
    (hwf : ∀ m ∈ (dictLookup hub.inboxes w).getD [], m.message_id < hub.nextId) :
    ((process_recommendation_requests_for_agent gen load w max_messages hub).1.map
        fun o => o.request_message_id) =
      (((dictLookup hub.inboxes w).getD []).take max_messages).map
        (fun m => m.message_id) ∧
    (∀ m ∈ ((dictLookup hub.inboxes w).getD []).drop max_messages,
      m ∉ (dictLookup (process_recommendation_requests_for_agent gen load w
        max_messages hub).2.1.inboxes w).getD []) ∧
    (process_recommendation_requests_for_agent gen load w max_messages hub).2.1.nextId ≤
      hub.nextId + min max_messages ((dictLookup hub.inboxes w).getD []).length := by
  have h1 : (process_recommendation_requests_for_agent gen load w max_messages hub).1 =
      (processLoop gen load w (((dictLookup hub.inboxes w).getD []).take max_messages)
        { hub with inboxes := dictInsert hub.inboxes w [] }).1 := rfl
  have h2 : (process_recommendation_requests_for_agent gen load w max_messages hub).2.1 =
      (processLoop gen load w (((dictLookup hub.inboxes w).getD []).take max_messages)
        { hub with inboxes := dictInsert hub.inboxes w [] }).2.1 := rfl
  have hfresh := processLoop_inbox_fresh gen load w hub.nextId
    (((dictLookup hub.inboxes w).getD []).take max_messages)
    { hub with inboxes := dictInsert hub.inboxes w [] }
    (le_refl _) (by simp [dictLookup_insert_self])
  refine ⟨?_, ?_, ?_⟩
  · rw [h1, processLoop_outcome_ids]
  · intro m hm hmem
    rw [h2] at hmem
    have := hfresh.2 m hmem
    have hlt := hwf m (List.drop_subset max_messages _ hm)
    omega
  · rw [h2]
    have := processLoop_nextId_le gen load w
      (((dictLookup hub.inboxes w).getD []).take max_messages)
      { hub with inboxes := dictInsert hub.inboxes w [] }
    simpa [List.length_take] using this

/-- A concrete hub for the C9 witness: three requests queued for "u2". -/
def hubCap : NandaHub :=
  ⟨[], [("u2", [⟨0, "u1", "u2", { type := some "recommendation_request" }⟩,
                ⟨1, "u1", "u2", { type := some "recommendation_request" }⟩,
                ⟨2, "u1", "u2", { type := some "recommendation_request" }⟩])], 3⟩

/-- Witness for C9: three drained messages, cap 2 — outcomes for the first
two only, the third dropped, at most two sends. -/
theorem worker_cap_witness :
    ((process_recommendation_requests_for_agent genW loadU1 "u2" 2 hubCap).1.map
        fun o => o.request_message_id) =
      (((dictLookup hubCap.inboxes "u2").getD []).take 2).map
        (fun m => m.message_id) ∧
    (∀ m ∈ ((dictLookup hubCap.inboxes "u2").getD []).drop 2,
      m ∉ (dictLookup (process_recommendation_requests_for_agent genW loadU1 "u2"
        2 hubCap).2.1.inboxes "u2").getD []) ∧
    (process_recommendation_requests_for_agent genW loadU1 "u2" 2 hubCap).2.1.nextId ≤
      hubCap.nextId + min 2 ((dictLookup hubCap.inboxes "u2").getD []).length :=
  worker_cap genW loadU1 "u2" 2 hubCap (by decide)

/-! ### Fan-out/dispatch ordering (C5) -/

/-- The claimed per-peer sequencing over a trace: for each pair of
consecutive discovered peers, the earlier peer's mailbox drain occurs — and
occurs at all — before the request send to the next peer. -/
def handledBeforeNext (tr : List Event) (uid : String) : List String → Bool
  | p :: q :: rest =>
    (match tr.findIdx? (· == Event.edrain p), tr.findIdx? (· == Event.esend uid q) with
     | some di, some si => decide (di < si)
     | _, _ => false) && handledBeforeNext tr uid (q :: rest)
  | _ => true

/-- A concrete two-peer run for C5: peers "u2" and "u3", every profile
stored. -/
def runTwoPeers : Except String AutoSearchResponse × NandaHub × List Event :=
  freigent_auto_search genW (fun _ => some profW) (fun _ => ["u2", "u3"])
    "u1" "q" NandaHub.empty

/-- The two-peer run's response object. -/
def respTwoPeers : AutoSearchResponse :=
  runTwoPeers.1.toOption.getD ⟨"", [], ⟨[], ""⟩, [], [], ""⟩

/-- Counterexample to C5 as stated: in the completed two-peer run the
request to the second peer is sent before the first peer's mailbox is
drained — fan-out and dispatch are two separate phases, not per-peer
send-then-drain handling. -/
theorem fanout_interleave_cex :
    runTwoPeers.1 = .ok respTwoPeers ∧
    respTwoPeers.helper_agent_ids = ["u2", "u3"] ∧
    handledBeforeNext runTwoPeers.2.2 "u1" ["u2", "u3"] = false :=
  ⟨rfl, by decide, by decide⟩

theorem processLoop_events (gen : String → Profile → String → RecResult)
    (load : String → Option Profile) (w : String) :
    ∀ (ms : List A2AMessage) (hub : NandaHub) (e : Event),
    e ∈ (processLoop gen load w ms hub).2.2 →
    e = Event.egen w ∨ ∃ f, e = Event.esend w f
  | [], hub, e, he => by simp [processLoop] at he
  | m :: rest, hub, e, he => by
    by_cases ht : m.payload.type = some "recommendation_request"
    · cases hl : load (m.payload.from_user_id.getD m.from_agent_id) with
      | none =>
        simp only [processLoop, ht, if_pos, hl, List.mem_cons] at he
        rcases he with rfl | he
        · exact Or.inr ⟨_, rfl⟩
        · exact processLoop_events gen load w rest _ e he
      | some prof =>
        simp only [processLoop, ht, if_pos, hl, List.mem_cons] at he
        rcases he with rfl | he
        · exact Or.inl rfl
        rcases he with rfl | he
        · exact Or.inr ⟨_, rfl⟩
        · exact processLoop_events gen load w rest _ e he
    · simp only [processLoop, ht] at he
      simp at he
      exact processLoop_events gen load w rest _ e he

theorem process_events (gen : String → Profile → String → RecResult)
    (load : String → Option Profile) (w : String) (max_messages : Nat)
    (hub : NandaHub) (e : Event)
    (he : e ∈ (process_recommendation_requests_for_agent gen load w
      max_messages hub).2.2) :
    e = Event.edrain w ∨ e = Event.egen w ∨ ∃ f, e = Event.esend w f := by
  have he' : e = Event.edrain w ∨
      e ∈ (processLoop gen load w
        (((dictLookup hub.inboxes w).getD []).take max_messages)
        { hub with inboxes := dictInsert hub.inboxes w [] }).2.2 :=
    List.mem_cons.mp he
  rcases he' with rfl | he'
  · exact Or.inl rfl
  · exact Or.inr (processLoop_events gen load w _ _ e he')

theorem registerLoop_events (load : String → Option Profile) :
    ∀ (hids : List String) (hub : NandaHub) (e : Event),
    e ∈ (registerLoop load hids hub).2 → ∃ h, e = Event.eregister h
  | [], hub, e, he => by simp [registerLoop] at he
  | hid :: rest, hub, e, he => by
    cases hl : load hid with
    | some prof =>
      simp only [registerLoop, hl, List.mem_cons] at he
      rcases he with rfl | he
      · exact ⟨hid, rfl⟩
      · exact registerLoop_events load rest _ e he
    | none =>
      simp only [registerLoop, hl] at he
      exact registerLoop_events load rest _ e he

theorem sendLoop_events (uid q : String) :
    ∀ (hids : List String) (hub : NandaHub) (e : Event),
    e ∈ (sendLoop uid q hids hub).2 → ∃ h, e = Event.esend uid h
  | [], hub, e, he => by simp [sendLoop] at he
  | hid :: rest, hub, e, he => by
    simp only [sendLoop, List.mem_cons] at he
    rcases he with rfl | he
    · exact ⟨hid, rfl⟩
    · exact sendLoop_events uid q rest _ e he

theorem dispatchLoop_events (gen : String → Profile → String → RecResult)
    (load : String → Option Profile) :
    ∀ (hids : List String) (hub : NandaHub) (e : Event),
    e ∈ (dispatchLoop gen load hids hub).2 →
    ∃ h, h ∈ hids ∧
      (e = Event.edrain h ∨ e = Event.egen h ∨ ∃ f, e = Event.esend h f)
  | [], hub, e, he => by simp [dispatchLoop] at he
  | hid :: rest, hub, e, he => by
    simp only [dispatchLoop, List.mem_append] at he
    rcases he with he | he
    · exact ⟨hid, List.mem_cons_self hid rest,
        process_events gen load hid 10 hub e he⟩
    · obtain ⟨h, hmem, hcase⟩ := dispatchLoop_events gen load rest _ e he
      exact ⟨h, List.mem_cons_of_mem _ hmem, hcase⟩

/-- C5 (amended): within one completed run the phases are strictly
sequential, but phase-wise rather than per-peer: the trace splits into a
prefix holding no mailbox drain at all (base recommendation call, peer
registrations, and all fan-out sends) followed by a suffix holding no
request send from the base (the per-peer worker dispatches and the final
base drain).  Every peer's request is therefore sent before any peer's
mailbox is drained — not send-then-drain peer by peer as claimed. -/
theorem fanout_before_dispatch (gen : String → Profile → String → RecResult)
    (load : String → Option Profile) (listHelpers : String → List String)
    (uid q : String) (hub : NandaHub) (prof : Profile)
    (hprof : load uid = some prof)
    (hnotself : uid ∉ listHelpers uid) :
    ∃ tr1 tr2,
      (freigent_auto_search gen load listHelpers uid q hub).2.2 = tr1 ++ tr2 ∧
      (∀ e ∈ tr1, ∀ a, e ≠ Event.edrain a) ∧
      (∀ e ∈ tr2, ∀ b, e ≠ Event.esend uid b) := by
  refine ⟨Event.egen uid :: ((registerLoop load (listHelpers uid) hub).2 ++
      (sendLoop uid q (listHelpers uid)
        (registerLoop load (listHelpers uid) hub).1).2),
    (dispatchLoop gen load (listHelpers uid)
      (sendLoop uid q (listHelpers uid)
        (registerLoop load (listHelpers uid) hub).1).1).2 ++
      [Event.edrain uid], ?_, ?_, ?_⟩
  · simp [freigent_auto_search, hprof]
  · intro e he a
    rcases List.mem_cons.mp he with rfl | he'
    · simp
    · rcases List.mem_append.mp he' with hr | hs
      · obtain ⟨h, rfl⟩ := registerLoop_events load _ _ e hr
        simp
      · obtain ⟨h, rfl⟩ := sendLoop_events uid q _ _ e hs
        simp
  · intro e he b
    rcases List.mem_append.mp he with hd | hone
    · obtain ⟨h, hmem, hcase⟩ := dispatchLoop_events gen load _ _ e hd
      have hne : h ≠ uid := fun hh => hnotself (hh ▸ hmem)
      rcases hcase with rfl | rfl | ⟨f, rfl⟩
      · simp
      · simp
      · intro hc
        injection hc with h1 h2
        exact hne h1
    · have he2 : e = Event.edrain uid := by simpa using hone
      subst he2
      simp

/-- Witness for C5 (amended): the concrete two-peer configuration. -/
theorem fanout_before_dispatch_witness :
    ∃ tr1 tr2,
      (freigent_auto_search genW (fun _ => some profW) (fun _ => ["u2", "u3"])
        "u1" "q" NandaHub.empty).2.2 = tr1 ++ tr2 ∧
      (∀ e ∈ tr1, ∀ a, e ≠ Event.edrain a) ∧
      (∀ e ∈ tr2, ∀ b, e ≠ Event.esend "u1" b) :=
  fanout_before_dispatch genW (fun _ => some profW) (fun _ => ["u2", "u3"])
    "u1" "q" NandaHub.empty profW rfl (by decide)

end Friegent
